import Mathlib

/-!
Verification of the Databricks Genie chat-relay program (`app.py`).

The development shallowly embeds the program: JSON-like Python values become
the inductive `PyVal`, Python exceptions become `Except String`, the Genie
backend becomes an explicit environment of fallible calls, and the bot's
session dictionary becomes an association list.  Python floats are modelled
as exact decimal numbers `mant / 10 ^ exp` (the decimal literals that reach
the renderers through JSON are exact, so this captures the formatting
behaviour the program relies on).
-/

namespace GenieBot

/-- JSON-like Python value, as handled by the renderers. A float is the exact
decimal `mant / 10 ^ exp`. -/
inductive PyVal where
  | pnone
  | pbool (b : Bool)
  | pint (n : Int)
  | pfloat (mant : Int) (exp : Nat)
  | pstr (s : String)
  | plist (xs : List PyVal)
  | pdict (kvs : List (String × PyVal))

/-- First binding of a key in a Python dict (keys are unique in dicts the
program builds, and Python lookup returns the single binding). -/
def dictLookup : List (String × PyVal) → String → Option PyVal
  | [], _ => none
  | (k2, v) :: r, k => if k2 = k then some v else dictLookup r k

/-- Python `d[k]` for a string key: `KeyError` on a missing key, `TypeError`
when the value is not a dict. -/
def pySubscript (v : PyVal) (k : String) : Except String PyVal :=
  match v with
  | .pdict kvs =>
    match dictLookup kvs k with
    | some x => .ok x
    | none => .error "KeyError"
  | _ => .error "TypeError: value is not subscriptable by a string"

/-- Whether the character list `needle` occurs contiguously in `hay`. -/
def leadMatch : List Char → List Char → Bool
  | [], _ => true
  | _ :: _, [] => false
  | a :: arest, b :: brest => a == b && leadMatch arest brest

/-- Substring test used by Python `in` on strings. -/
def containsSubstr (needle : List Char) : List Char → Bool
  | [] => needle.isEmpty
  | c :: rest => leadMatch needle (c :: rest) || containsSubstr needle rest

/-- Python `k in v`: key membership for dicts, element equality for lists,
substring for strings, `TypeError` otherwise. -/
def pyContains (v : PyVal) (k : String) : Except String Bool :=
  match v with
  | .pdict kvs => .ok (dictLookup kvs k).isSome
  | .plist xs => .ok (xs.any fun x => match x with | .pstr s => s == k | _ => false)
  | .pstr s => .ok (containsSubstr k.data s.data)
  | _ => .error "TypeError: argument of this type is not iterable"

/-- Python iteration over a value: lists yield elements, strings yield
one-character strings, dicts yield their keys; other values raise. -/
def pyIter (v : PyVal) : Except String (List PyVal) :=
  match v with
  | .plist xs => .ok xs
  | .pstr s => .ok (s.data.map fun c => .pstr (String.mk [c]))
  | .pdict kvs => .ok (kvs.map fun kv => .pstr kv.1)
  | _ => .error "TypeError: value is not iterable"

/-- Python truthiness. -/
def pyTruthy : PyVal → Bool
  | .pnone => false
  | .pbool b => b
  | .pint n => n != 0
  | .pfloat m _ => m != 0
  | .pstr s => s != ""
  | .plist xs => !xs.isEmpty
  | .pdict kvs => !kvs.isEmpty

/-- Value of a list of decimal digit characters (0 on the empty list, as in
the integer part of `.5`). -/
def digitsVal : List Char → Nat :=
  List.foldl (fun a c => a * 10 + (c.toNat - 48)) 0

/-- Parse the decimal strings accepted by Python `float`, restricted to the
forms `[+-]digits`, `[+-]digits.`, `[+-].digits`, `[+-]digits.digits`.
Returns the exact decimal (mantissa, exponent). -/
def parseFloatStr (s : String) : Option (Int × Nat) :=
  let core : List Char → Option (Int × Nat) := fun l =>
    let ip := l.takeWhile (·.isDigit)
    let rest := l.dropWhile (·.isDigit)
    match rest with
    | [] => if ip.isEmpty then none else some ((digitsVal ip : Int), 0)
    | '.' :: fr =>
      if fr.all (·.isDigit) && (!ip.isEmpty || !fr.isEmpty) then
        some (((digitsVal ip * 10 ^ fr.length + digitsVal fr : Nat) : Int), fr.length)
      else none
    | _ => none
  match s.data with
  | '-' :: r => (core r).map fun p => (-p.1, p.2)
  | '+' :: r => core r
  | r => core r

/-- Parse the integer strings accepted by Python `int`. -/
def parseIntStr (s : String) : Option Int :=
  let core : List Char → Option Int := fun l =>
    if l.isEmpty then none
    else if l.all (·.isDigit) then some (digitsVal l) else none
  match s.data with
  | '-' :: r => (core r).map (fun n => -n)
  | '+' :: r => core r
  | r => core r

/-- Python `float(value)` as an exact decimal. -/
def pyFloat (v : PyVal) : Except String (Int × Nat) :=
  match v with
  | .pbool b => .ok (if b then (1, 0) else (0, 0))
  | .pint n => .ok (n, 0)
  | .pfloat m e => .ok (m, e)
  | .pstr s =>
    match parseFloatStr s with
    | some p => .ok p
    | none => .error "ValueError: could not convert string to float"
  | _ => .error "TypeError: float argument has a wrong type"

/-- Python `int(value)`: floats truncate toward zero, strings must be pure
integer literals. -/
def pyInt (v : PyVal) : Except String Int :=
  match v with
  | .pbool b => .ok (if b then 1 else 0)
  | .pint n => .ok n
  | .pfloat m e => .ok (m.tdiv ((10 : Int) ^ e))
  | .pstr s =>
    match parseIntStr s with
    | some n => .ok n
    | none => .error "ValueError: invalid literal for int"
  | _ => .error "TypeError: int argument has a wrong type"

/-- Insert thousands separators into a reversed digit list. -/
def groupRev : List Char → List Char
  | a :: b :: c :: d :: rest => a :: b :: c :: ',' :: groupRev (d :: rest)
  | l => l

/-- `n` printed with thousands separators, as Python `format(n, ",")`. -/
def commaGroupNat (n : Nat) : String :=
  String.mk ((groupRev (toString n).data.reverse).reverse)

/-- Round the exact decimal `a / 10 ^ e` (with `a ≥ 0`) to an integer number
of hundredths, rounding halves to even as Python string formatting does. -/
def centsOf (a : Nat) (e : Nat) : Nat :=
  if e ≤ 2 then a * 10 ^ (2 - e)
  else
    let d := 10 ^ (e - 2)
    let q := a / d
    let r := a % d
    if 2 * r > d then q + 1
    else if 2 * r < d then q
    else if q % 2 = 0 then q else q + 1

/-- Python `f"{x:,.2f}"` on the exact decimal `m / 10 ^ e`. -/
def formatFloat2 (m : Int) (e : Nat) : String :=
  let c := centsOf m.natAbs e
  (if m < 0 then "-" else "") ++ commaGroupNat (c / 100) ++ "." ++
    (if c % 100 < 10 then "0" ++ toString (c % 100) else toString (c % 100))

/-- Python `f"{n:,}"` on an integer. -/
def formatIntComma (n : Int) : String :=
  (if n < 0 then "-" else "") ++ commaGroupNat n.natAbs

/-- Remove trailing zero digits from a fraction digit list (keeping at least
one digit), used to print floats the way Python shortens them. -/
def stripTrailingZeros (l : List Char) : List Char :=
  let r := l.reverse.dropWhile (· == '0')
  if r.isEmpty then ['0'] else r.reverse

/-- Left-pad a digit list with zeros to length at least `n`. -/
def padDigitsTo (n : Nat) (l : List Char) : List Char :=
  List.replicate (n - l.length) '0' ++ l

/-- Python `str` of the float `m / 10 ^ e`: digits with a decimal point and
at least one fractional digit. -/
def floatRepr (m : Int) (e : Nat) : String :=
  let ds := padDigitsTo (e + 1) (toString m.natAbs).data
  let ip := ds.take (ds.length - e)
  let fp := stripTrailingZeros (ds.drop (ds.length - e))
  (if m < 0 then "-" else "") ++ String.mk ip ++ "." ++ String.mk fp

mutual

/-- Python `repr` of a value (element form used inside containers). -/
def pyRepr : PyVal → String
  | .pnone => "None"
  | .pbool true => "True"
  | .pbool false => "False"
  | .pint n => toString n
  | .pfloat m e => floatRepr m e
  | .pstr s => "\x27" ++ s ++ "\x27"
  | .plist xs => "[" ++ pyReprList xs ++ "]"
  | .pdict kvs => "\x7b" ++ pyReprDict kvs ++ "\x7d"

/-- Comma-separated reprs of list elements. -/
def pyReprList : List PyVal → String
  | [] => ""
  | [x] => pyRepr x
  | x :: y :: xs => pyRepr x ++ ", " ++ pyReprList (y :: xs)

/-- Comma-separated reprs of dict entries. -/
def pyReprDict : List (String × PyVal) → String
  | [] => ""
  | [(k, v)] => "\x27" ++ k ++ "\x27: " ++ pyRepr v
  | (k, v) :: y :: xs => "\x27" ++ k ++ "\x27: " ++ pyRepr v ++ ", " ++ pyReprDict (y :: xs)

end

/-- Python `str` of a value. -/
def pyStr : PyVal → String
  | .pstr s => s
  | v => pyRepr v

/-- Whether a schema type tag is one of `DECIMAL`, `DOUBLE`, `FLOAT`
(Python `==` between a non-string and a string is `False`). -/
def isFloatTag : PyVal → Bool
  | .pstr s => s == "DECIMAL" || s == "DOUBLE" || s == "FLOAT"
  | _ => false

/-- Whether a schema type tag is one of `INT`, `BIGINT`, `LONG`. -/
def isIntTag : PyVal → Bool
  | .pstr s => s == "INT" || s == "BIGINT" || s == "LONG"
  | _ => false

/-- Cell formatting of `process_query_results` (app.py lines 156-163):
`None` renders as `"NULL"`, decimal tags as `f"{float(value):,.2f}"`,
integer tags as `f"{int(value):,}"`, anything else as `str(value)`. -/
def format_cell_plain (value col : PyVal) : Except String String :=
  match value with
  | .pnone => .ok "NULL"
  | _ => do
    let tn ← pySubscript col "type_name"
    if isFloatTag tn then do
      let p ← pyFloat value
      pure (formatFloat2 p.1 p.2)
    else if isIntTag tn then do
      let n ← pyInt value
      pure (formatIntComma n)
    else
      pure (pyStr value)

/-- Cell formatting of `process_for_slack` (app.py lines 217-224), written
from its own source lines; textually the same algorithm as the plain one. -/
def format_cell_slack (value col : PyVal) : Except String String :=
  match value with
  | .pnone => .ok "NULL"
  | _ => do
    let tn ← pySubscript col "type_name"
    if isFloatTag tn then do
      let p ← pyFloat value
      pure (formatFloat2 p.1 p.2)
    else if isIntTag tn then do
      let n ← pyInt value
      pure (formatIntComma n)
    else
      pure (pyStr value)

/-- Sequential effectful map, the translation of a Python `for` loop that
stops at the first raised exception. -/
def mapE {α β : Type} (f : α → Except String β) : List α → Except String (List β)
  | [] => .ok []
  | a :: l => do
    let b ← f a
    let l2 ← mapE f l
    pure (b :: l2)

/-- `col["name"]`, which the renderers then feed to `str.join` / `str.ljust`
(so a non-string name raises before any output is produced). -/
def getNameStr (col : PyVal) : Except String String := do
  let n ← pySubscript col "name"
  match n with
  | .pstr s => pure s
  | _ => .error "TypeError: column name is not a string"

/-- Optional `## Query Description` header of `process_query_results`
(app.py lines 142-143). -/
def plainDescPart (aj : PyVal) : Except String String := do
  let b ← pyContains aj "query_description"
  if b then do
    let v ← pySubscript aj "query_description"
    if pyTruthy v then pure ("## Query Description\n\n" ++ pyStr v ++ "\n\n")
    else pure ""
  else pure ""

/-- Markdown header row of `process_query_results` (app.py line 150). -/
def mkHeaderLine (names : List String) : String :=
  "| " ++ String.intercalate " | " names ++ " |"

/-- Markdown separator row (app.py line 151), one `---` per column. -/
def mkSepLine (n : Nat) : String :=
  "|" ++ String.intercalate "|" (List.replicate n "---") ++ "|"

/-- One markdown data row (app.py line 165). -/
def mkRowLine (cells : List String) : String :=
  "| " ++ String.intercalate " | " cells ++ " |" ++ "\n"

/-- Body of the row loop of `process_query_results` (app.py lines 153-165):
iterate the row, zip cells with columns (zip truncates to the shorter), and
emit one markdown line. -/
def plainRowFun (cols : List PyVal) (r : PyVal) : Except String String := do
  let cells ← pyIter r
  let fcells ← mapE (fun p => format_cell_plain p.1 p.2) (cells.zip cols)
  pure (mkRowLine fcells)

/-- `process_query_results` (app.py lines 140-173): description header, then
either a markdown table, an `Unexpected column format` note, the raw
message, or the `No data available.` fallback. -/
def process_query_results (aj : PyVal) : Except String String := do
  let desc ← plainDescPart aj
  let hasCols ← pyContains aj "columns"
  let hasBoth ← if hasCols then pyContains aj "data" else pure false
  if hasBoth then do
    let resp1 := desc ++ "## Query Results\n\n"
    let columns ← pySubscript aj "columns"
    let data ← pySubscript aj "data"
    match columns with
    | .pdict ckvs =>
      if (dictLookup ckvs "columns").isSome then do
        let colsV ← pySubscript columns "columns"
        let cols ← pyIter colsV
        let names ← mapE getNameStr cols
        let rowsV ← pySubscript data "data_array"
        let rows ← pyIter rowsV
        let body ← mapE (plainRowFun cols) rows
        pure (resp1 ++ mkHeaderLine names ++ "\n" ++ mkSepLine cols.length ++ "\n" ++
          String.join body)
      else
        pure (resp1 ++ "Unexpected column format: " ++ pyStr columns ++ "\n\n")
    | _ => pure (resp1 ++ "Unexpected column format: " ++ pyStr columns ++ "\n\n")
  else do
    let hasMsg ← pyContains aj "message"
    if hasMsg then do
      let m ← pySubscript aj "message"
      pure (desc ++ pyStr m ++ "\n\n")
    else pure (desc ++ "No data available.\n\n")

/-- A Slack Block Kit block as produced by `process_for_slack`: a `section`
with mrkdwn text (the text is whatever value the code put there), or a
`divider`. -/
inductive SlackBlock where
  | section (text : PyVal)
  | divider

/-- Optional description section and divider of `process_for_slack`
(app.py lines 183-193). -/
def descBlocksSlack (aj : PyVal) : Except String (List SlackBlock) := do
  let b ← pyContains aj "query_description"
  if b then do
    let v ← pySubscript aj "query_description"
    if pyTruthy v then
      pure [.section (.pstr ("*Query Description:*\n" ++ pyStr v)), .divider]
    else pure []
  else pure []

/-- The fixed `*Query Results:*` section block (app.py lines 201-206). -/
def resultsHeaderBlock : SlackBlock := .section (.pstr "*Query Results:*")

/-- Python `s.ljust(w)`. -/
def pyLjust (s : String) (w : Nat) : String :=
  s ++ String.mk (List.replicate (w - s.length) ' ')

/-- Python `s * n` for strings. -/
def pyStrMul (s : String) (n : Nat) : String :=
  String.mk (List.flatten (List.replicate n s.data))

/-- Python `s[:n]`. -/
def pySlice (s : String) (n : Nat) : String :=
  String.mk (s.data.take n)

/-- Inner cell loop of `process_for_slack` (app.py lines 215-228): walks the
cells of one row with their index, looks up the column, formats the cell and
widens the tracked column width; indexing past the column list raises. -/
def slackRowLoop (cols : List PyVal) : List PyVal → Nat → List Nat →
    Except String (List Nat × List String)
  | [], _, widths => .ok (widths, [])
  | v :: rest, i, widths => do
    let col ← match cols[i]? with
      | some c => pure c
      | none => .error "IndexError: column index out of range"
    let fv ← format_cell_slack v col
    let w ← match widths[i]? with
      | some w => pure w
      | none => .error "IndexError: width index out of range"
    match slackRowLoop cols rest (i + 1) (widths.set i (max w fv.length)) with
    | .ok (widths2, fr) => .ok (widths2, fv :: fr)
    | .error e => .error e

/-- Outer row loop of `process_for_slack` (app.py lines 213-229), threading
the column widths and accumulating the formatted rows. -/
def slackRowsLoop (cols : List PyVal) : List PyVal → List Nat →
    Except String (List Nat × List (List String))
  | [], widths => .ok (widths, [])
  | r :: rest, widths => do
    let cells ← pyIter r
    let (w1, fr) ← slackRowLoop cols cells 0 widths
    match slackRowsLoop cols rest w1 with
    | .ok (w2, frs) => .ok (w2, fr :: frs)
    | .error e => .error e

/-- Fixed-width table text of `process_for_slack` (app.py lines 232-244):
padded header, `-+-` separator, padded rows, each line newline-terminated. -/
def slackTableStr (names : List String) (widths : List Nat)
    (frows : List (List String)) : String :=
  String.intercalate " | " (List.zipWith pyLjust names widths) ++ "\n" ++
  String.intercalate "-+-" (widths.map fun w => pyStrMul "-" w) ++ "\n" ++
  String.join (frows.map fun r =>
    String.intercalate " | " (List.zipWith pyLjust r widths) ++ "\n")

/-- Truncation of the rendered table (app.py lines 248-251): keep the first
2950 characters and append an ellipsis when anything was cut. -/
def truncateTable (t : String) : String :=
  pySlice t 2950 ++ (if t.length > 2950 then "..." else "")

/-- `process_for_slack` (app.py lines 176-288): description blocks, then a
table (header section plus preformatted truncated table), the
`Unexpected data format received.` fallback, the raw message section, or the
`No data available.` fallback. -/
def process_for_slack (aj : PyVal) : Except String (List SlackBlock) := do
  let dblocks ← descBlocksSlack aj
  let hasCols ← pyContains aj "columns"
  let hasBoth ← if hasCols then pyContains aj "data" else pure false
  if hasBoth then do
    let columns ← pySubscript aj "columns"
    let data ← pySubscript aj "data"
    let good ← match columns with
      | .pdict ckvs =>
        if (dictLookup ckvs "columns").isSome then pyContains data "data_array"
        else pure false
      | _ => pure false
    if good then do
      let colsV ← pySubscript columns "columns"
      let cols ← pyIter colsV
      let names ← mapE getNameStr cols
      let rowsV ← pySubscript data "data_array"
      let rows ← pyIter rowsV
      let (widths, frows) ← slackRowsLoop cols rows (names.map String.length)
      pure (dblocks ++ [resultsHeaderBlock,
        .section (.pstr ("```" ++ truncateTable (slackTableStr names widths frows) ++ "```"))])
    else
      pure (dblocks ++ [.section (.pstr "Unexpected data format received.")])
  else do
    let hasMsg ← pyContains aj "message"
    if hasMsg then do
      let m ← pySubscript aj "message"
      pure (dblocks ++ [.section m])
    else
      pure (dblocks ++ [.section (.pstr "No data available.")])

/-- Result of `start_conversation_and_wait` / `create_message_and_wait`:
`query_result` only matters through `is not None` (app.py line 87). -/
structure InitialMessage where
  conversation_id : String
  id : String
  query_result : Option Unit

/-- Reference to an executed statement inside a query result. -/
structure StatementRef where
  statement_id : String

/-- Result of `get_message_query_result`. -/
structure QueryResultResp where
  statement_response : Option StatementRef

/-- Text part of an attachment; `content` may be absent. -/
structure TextAttachment where
  content : Option String

/-- Query part of an attachment; `description` may be absent. -/
structure QueryAttachment where
  description : Option String

/-- A message attachment carrying an optional query part and text part. -/
structure Attachment where
  query : Option QueryAttachment
  text : Option TextAttachment

/-- Result of `get_message`; `attachments` is `None` or a list. -/
structure MessageContent where
  content : String
  attachments : Option (List Attachment)

/-- Result of `statement_execution.get_statement`, already serialized the way
`ask_genie` uses it (`manifest.schema.as_dict()` / `result.as_dict()`). -/
structure StatementResults where
  schema_dict : PyVal
  result_dict : PyVal

/-- One backend invocation, recorded so theorems can observe which calls a
run performed. -/
inductive Call where
  | startConv (space question : String)
  | createMsg (space convId question : String)
  | getQueryResult (space convId msgId : String)
  | getMsg (space convId msgId : String)
  | getStatement (stmtId : String)
deriving DecidableEq

/-- The Genie backend as an environment of fallible blocking calls; an
`Except.error` models the call raising an exception (the string is the
exception detail). -/
structure Env where
  start_conversation_and_wait : String → String → Except String InitialMessage
  create_message_and_wait : String → String → String → Except String InitialMessage
  get_message_query_result : String → String → String → Except String QueryResultResp
  get_message : String → String → String → Except String MessageContent
  get_statement : String → Except String StatementResults

/-- The fixed payload `ask_genie` returns on any caught exception
(app.py lines 135-137). -/
def errorPayload : PyVal :=
  .pdict [("error", .pstr "An error occurred while processing your request.")]

/-- The tabular payload built on the statement-result path
(app.py lines 117-123). -/
def tabularPayload (results : StatementResults) (qd : String) : PyVal :=
  .pdict [("columns", results.schema_dict), ("data", results.result_dict),
    ("query_description", .pstr qd)]

/-- First truthy attachment query description (app.py lines 111-115),
defaulting to the empty string. -/
def queryDescription (atts : List Attachment) : String :=
  (atts.findSome? fun a =>
    match a.query with
    | some qa =>
      match qa.description with
      | some d => if d = "" then none else some d
      | none => none
    | none => none).getD ""

/-- First truthy attachment text content (app.py lines 125-130). -/
def attachmentText (atts : List Attachment) : Option String :=
  atts.findSome? fun a =>
    match a.text with
    | some t =>
      match t.content with
      | some c => if c = "" then none else some c
      | none => none
    | none => none

/-- Message payload for a response without statement results
(app.py lines 125-132): first truthy attachment text if the attachment list
is truthy, else the raw message content. -/
def fallbackMsg (mc : MessageContent) : PyVal :=
  match mc.attachments with
  | some atts =>
    if atts.isEmpty then .pdict [("message", .pstr mc.content)]
    else
      match attachmentText atts with
      | some c => .pdict [("message", .pstr c)]
      | none => .pdict [("message", .pstr mc.content)]
  | none => .pdict [("message", .pstr mc.content)]

/-- Step 1 of `ask_genie` (app.py lines 72-84): fresh conversations go
through `start_conversation_and_wait` and adopt the returned conversation
id; follow-ups go through `create_message_and_wait` and keep the input id.
Returns the outcome and the recorded backend call. -/
def step1 (env : Env) (space_id question : String) (cid0 : Option String) :
    Except String (InitialMessage × String) × List Call :=
  match cid0 with
  | none =>
    (match env.start_conversation_and_wait space_id question with
     | .ok m => .ok (m, m.conversation_id)
     | .error e => .error e,
     [Call.startConv space_id question])
  | some cid =>
    (match env.create_message_and_wait space_id cid question with
     | .ok m => .ok (m, cid)
     | .error e => .error e,
     [Call.createMsg space_id cid question])

/-- Steps 2-6 of `ask_genie` (app.py lines 86-132): optional query-result
fetch, message fetch, then either the tabular payload (a `None` attachment
list raises there, as the description loop iterates it) or the message
payload. -/
def askRest (env : Env) (space_id : String) (im : InitialMessage) :
    Except String PyVal × List Call :=
  match im.query_result with
  | none =>
    match env.get_message space_id im.conversation_id im.id with
    | .error e => (.error e, [Call.getMsg space_id im.conversation_id im.id])
    | .ok mc => (.ok (fallbackMsg mc), [Call.getMsg space_id im.conversation_id im.id])
  | some _ =>
    match env.get_message_query_result space_id im.conversation_id im.id with
    | .error e => (.error e, [Call.getQueryResult space_id im.conversation_id im.id])
    | .ok qr =>
      match env.get_message space_id im.conversation_id im.id with
      | .error e =>
        (.error e, [Call.getQueryResult space_id im.conversation_id im.id,
          Call.getMsg space_id im.conversation_id im.id])
      | .ok mc =>
        match qr.statement_response with
        | none =>
          (.ok (fallbackMsg mc), [Call.getQueryResult space_id im.conversation_id im.id,
            Call.getMsg space_id im.conversation_id im.id])
        | some sr =>
          match env.get_statement sr.statement_id with
          | .error e =>
            (.error e, [Call.getQueryResult space_id im.conversation_id im.id,
              Call.getMsg space_id im.conversation_id im.id,
              Call.getStatement sr.statement_id])
          | .ok results =>
            match mc.attachments with
            | none =>
              (.error "TypeError: NoneType object is not iterable",
                [Call.getQueryResult space_id im.conversation_id im.id,
                 Call.getMsg space_id im.conversation_id im.id,
                 Call.getStatement sr.statement_id])
            | some atts =>
              (.ok (tabularPayload results (queryDescription atts)),
                [Call.getQueryResult space_id im.conversation_id im.id,
                 Call.getMsg space_id im.conversation_id im.id,
                 Call.getStatement sr.statement_id])

/-- `ask_genie` (app.py lines 67-137): runs the call sequence, catching every
exception into the fixed error payload; the returned conversation id is the
local variable at the moment of return (the input id if step 1 failed, the
id resolved by step 1 otherwise). -/
def ask_genie (env : Env) (question space_id : String) (conversation_id : Option String) :
    PyVal × Option String × List Call :=
  match step1 env space_id question conversation_id with
  | (.error _, tr) => (errorPayload, conversation_id, tr)
  | (.ok (im, cid), tr) =>
    match askRest env space_id im with
    | (.error _, tr2) => (errorPayload, some cid, tr ++ tr2)
    | (.ok payload, tr2) => (payload, some cid, tr ++ tr2)

/-- The bot's session registry `self.conversation_ids`: a Python dict whose
values can be `None` despite the `Dict[str, str]` annotation. -/
abbrev Registry : Type := List (String × Option String)

/-- Python dict assignment `d[k] = v`: replace the binding in place or append. -/
def regSet : Registry → String → Option String → Registry
  | [], k, v => [(k, v)]
  | (k2, v2) :: r, k, v => if k2 = k then (k, v) :: r else (k2, v2) :: regSet r k v

/-- The raw binding under a key, when present (a present binding may still
hold Python `None`). -/
def regFind : Registry → String → Option (Option String)
  | [], _ => none
  | (k2, v2) :: r, k => if k2 = k then some v2 else regFind r k

/-- Python `d.get(k)`: `None` both for a missing key and for a stored `None`. -/
def regGet (m : Registry) (k : String) : Option String :=
  match regFind m k with
  | some v => v
  | none => none

/-- The reply the handler sends back for one inbound message. -/
inductive Reply where
  | blocksReply (bs : List SlackBlock)
  | textReply (s : String)
  | errorReply (s : String)

/-- The fixed user-facing string of the handler's generic `except` branch
(app.py lines 336-338). -/
def GENERIC_ERROR : String := "An error occurred while processing your request."

/-- `MyBot.on_message_activity` (app.py lines 299-338): look up the session,
run `ask_genie`, always store the returned conversation id, then render by
channel; a renderer exception degrades to the fixed error reply (the
registry update has already happened). Returns the new registry, the reply,
and the backend calls performed. -/
def on_message_activity (env : Env) (space : String) (st : Registry)
    (user question channel : String) : Registry × Reply × List Call :=
  let cid := regGet st user
  let r := ask_genie env question space cid
  let st1 := regSet st user r.2.1
  let reply :=
    if channel = "slack" then
      match process_for_slack r.1 with
      | .ok bs => Reply.blocksReply bs
      | .error _ => Reply.errorReply GENERIC_ERROR
    else
      match process_query_results r.1 with
      | .ok s => Reply.textReply s
      | .error _ => Reply.errorReply GENERIC_ERROR
  (st1, reply, r.2.2)

/-- One step of width widening: each tracked column width grows to cover the
formatted cells of one row. -/
def widthStep (ws : List Nat) (fr : List String) : List Nat :=
  List.zipWith max ws (fr.map String.length)

/-- Width of the widest formatted cell of column `i` across the rows
(0 when there are no rows), the quantity the spec calls the widest cell. -/
def columnMax (frows : List (List String)) (i : Nat) : Nat :=
  frows.foldl (fun a r => max a ((r.getD i "").length)) 0

/-- Backend on which every call raises, for exercising the error paths. -/
def envFail : Env where
  start_conversation_and_wait := fun _ _ => .error "boom"
  create_message_and_wait := fun _ _ _ => .error "boom"
  get_message_query_result := fun _ _ _ => .error "boom"
  get_message := fun _ _ _ => .error "boom"
  get_statement := fun _ => .error "boom"

/-- Backend whose conversation start succeeds with thread id `T1` but whose
message fetch raises, for exercising a failure after the id is resolved. -/
def envHalf : Env where
  start_conversation_and_wait := fun _ _ => .ok ⟨"T1", "m1", none⟩
  create_message_and_wait := fun _ _ _ => .ok ⟨"T1", "m2", none⟩
  get_message_query_result := fun _ _ _ => .error "boom"
  get_message := fun _ _ _ => .error "boom"
  get_statement := fun _ => .error "boom"

/-- Backend that answers every turn with a plain text message on thread
`T1`. -/
def envMsg : Env where
  start_conversation_and_wait := fun _ _ => .ok ⟨"T1", "m1", none⟩
  create_message_and_wait := fun _ _ _ => .ok ⟨"T1", "m2", none⟩
  get_message_query_result := fun _ _ _ => .error "unused"
  get_message := fun _ _ _ => .ok ⟨"hello", none⟩
  get_statement := fun _ => .error "unused"

/-- A 3000-character column name, driving the rendered table over the
truncation threshold. -/
def c3name : String := String.mk (List.replicate 3000 'a')

/-- Payload with a single wide column and no rows: its fixed-width rendering
is 6002 characters long. -/
def c3cex : PyVal := .pdict [
  ("columns", .pdict [("columns", .plist [
    .pdict [("name", .pstr c3name), ("type_name", .pstr "STRING")]])]),
  ("data", .pdict [("data_array", .plist [])])]

/-- The table text `process_for_slack` renders for `c3cex` before
truncation. -/
def c3table : String := slackTableStr [c3name] [3000] []

/-- Payload whose `data` dict lacks `data_array`: `process_query_results`
reaches `data["data_array"]` and raises `KeyError`. -/
def c4cex : PyVal :=
  .pdict [("columns", .pdict [("columns", .plist [])]), ("data", .pdict [])]

/-- Payload whose `data` is a number: `"data_array" in data` raises
`TypeError` in `process_for_slack`. -/
def c10cex : PyVal :=
  .pdict [("columns", .pdict [("columns", .plist [])]), ("data", .pint 0)]

/-! ### Helper lemmas -/

theorem mapE_ok {α β : Type} (f : α → Except String β) :
    ∀ l : List α, (∀ a ∈ l, ∃ b, f a = .ok b) →
      ∃ l2, mapE f l = .ok l2 ∧ List.Forall₂ (fun a b => f a = .ok b) l l2 := by
  intro l
  induction l with
  | nil => intro _; exact ⟨[], rfl, List.Forall₂.nil⟩
  | cons a t ih =>
    intro h
    obtain ⟨b, hb⟩ := h a (List.mem_cons_self a t)
    obtain ⟨l2, hl2, hf⟩ := ih fun x hx => h x (List.mem_cons_of_mem a hx)
    exact ⟨b :: l2, by simp [mapE, hb, hl2, Bind.bind, Except.bind, pure, Except.pure],
      List.Forall₂.cons hb hf⟩

theorem plainDescPart_pdict (kvs : List (String × PyVal)) :
    ∃ s, plainDescPart (.pdict kvs) = .ok s := by
  unfold plainDescPart
  cases h : dictLookup kvs "query_description" with
  | none => exact ⟨"", by simp [pyContains, h, Bind.bind, Except.bind, pure, Except.pure]⟩
  | some v =>
    by_cases ht : pyTruthy v = true
    · exact ⟨"## Query Description\n\n" ++ pyStr v ++ "\n\n",
        by simp [pyContains, pySubscript, h, ht, Bind.bind, Except.bind, pure, Except.pure]⟩
    · exact ⟨"", by simp [pyContains, pySubscript, h, ht, Bind.bind, Except.bind, pure,
        Except.pure]⟩

theorem descBlocksSlack_pdict (kvs : List (String × PyVal)) :
    ∃ bs, descBlocksSlack (.pdict kvs) = .ok bs := by
  unfold descBlocksSlack
  cases h : dictLookup kvs "query_description" with
  | none => exact ⟨[], by simp [pyContains, h, Bind.bind, Except.bind, pure, Except.pure]⟩
  | some v =>
    by_cases ht : pyTruthy v = true
    · exact ⟨[.section (.pstr ("*Query Description:*\n" ++ pyStr v)), .divider],
        by simp [pyContains, pySubscript, h, ht, Bind.bind, Except.bind, pure, Except.pure]⟩
    · exact ⟨[], by simp [pyContains, pySubscript, h, ht, Bind.bind, Except.bind, pure,
        Except.pure]⟩

/-! ### C6: scalar cell formatting in the plain renderer -/

/-- C6: in `process_query_results` cell formatting, `1234567.5` under tag
`DOUBLE` renders as `1,234,567.50`; `1234567` under `BIGINT` renders as
`1,234,567`; `None` renders as `NULL` under every tag; any non-null value
under a tag that is neither a decimal nor an integer tag renders as its
Python string form. -/
theorem genie_C6 :
    format_cell_plain (.pfloat 12345675 1) (.pdict [("type_name", .pstr "DOUBLE")]) =
      .ok "1,234,567.50" ∧
    format_cell_plain (.pint 1234567) (.pdict [("type_name", .pstr "BIGINT")]) =
      .ok "1,234,567" ∧
    (∀ tag : String, format_cell_plain .pnone (.pdict [("type_name", .pstr tag)]) =
      .ok "NULL") ∧
    (∀ (v : PyVal) (tag : String), v ≠ .pnone →
      isFloatTag (.pstr tag) = false → isIntTag (.pstr tag) = false →
      format_cell_plain v (.pdict [("type_name", .pstr tag)]) = .ok (pyStr v)) := by
  refine ⟨rfl, rfl, fun tag => rfl, ?_⟩
  intro v tag hv h1 h2
  cases v with
  | pnone => exact absurd rfl hv
  | pbool b =>
    simp [format_cell_plain, pySubscript, dictLookup, h1, h2, Bind.bind, Except.bind,
      pure, Except.pure]
  | pint n =>
    simp [format_cell_plain, pySubscript, dictLookup, h1, h2, Bind.bind, Except.bind,
      pure, Except.pure]
  | pfloat m e =>
    simp [format_cell_plain, pySubscript, dictLookup, h1, h2, Bind.bind, Except.bind,
      pure, Except.pure]
  | pstr s =>
    simp [format_cell_plain, pySubscript, dictLookup, h1, h2, Bind.bind, Except.bind,
      pure, Except.pure]
  | plist xs =>
    simp [format_cell_plain, pySubscript, dictLookup, h1, h2, Bind.bind, Except.bind,
      pure, Except.pure]
  | pdict kvs =>
    simp [format_cell_plain, pySubscript, dictLookup, h1, h2, Bind.bind, Except.bind,
      pure, Except.pure]

/-- Witness for C6 at concrete tags and a concrete non-null value. -/
theorem genie_C6_witness :
    format_cell_plain .pnone (.pdict [("type_name", .pstr "WHATEVER")]) = .ok "NULL" ∧
    format_cell_plain (.pstr "x") (.pdict [("type_name", .pstr "STRING")]) =
      .ok (pyStr (.pstr "x")) :=
  ⟨genie_C6.2.2.1 "WHATEVER",
   genie_C6.2.2.2 (.pstr "x") "STRING" (fun h => PyVal.noConfusion h) rfl rfl⟩

/-! ### C8: the two renderers share the cell formatting -/

/-- C8: the cell formatting of `process_query_results` and the cell
formatting of `process_for_slack` agree on every value and column. -/
theorem genie_C8 : ∀ value col : PyVal,
    format_cell_plain value col = format_cell_slack value col :=
  fun _ _ => rfl

/-! ### C4 and C10 counterexamples -/

/-- Counterexample to C4 as stated: on a payload whose `data` dict lacks
`data_array`, `process_query_results` raises (`KeyError`) instead of
falling back to a placeholder. -/
theorem genie_C4_cex : process_query_results c4cex = .error "KeyError" := rfl

/-- Counterexample to C10 as stated: when `columns` is a dict containing
`columns` but `data` is a number, `"data_array" in data` raises `TypeError`
instead of producing the fallback block. -/
theorem genie_C10_cex :
    process_for_slack c10cex = .error "TypeError: argument of this type is not iterable" :=
  rfl

/-! ### Orchestrator helper lemmas -/

theorem ask_genie_step1_error (env : Env) (question space_id : String)
    (cid0 : Option String) (e : String)
    (h : (step1 env space_id question cid0).1 = .error e) :
    ask_genie env question space_id cid0 =
      (errorPayload, cid0, (step1 env space_id question cid0).2) := by
  rcases hs : step1 env space_id question cid0 with ⟨r, tr⟩
  rw [hs] at h
  simp only at h
  subst h
  simp [ask_genie, hs]

theorem ask_genie_rest_error (env : Env) (question space_id : String)
    (cid0 : Option String) (im : InitialMessage) (cid e : String)
    (h1 : (step1 env space_id question cid0).1 = .ok (im, cid))
    (h2 : (askRest env space_id im).1 = .error e) :
    (ask_genie env question space_id cid0).1 = errorPayload ∧
    (ask_genie env question space_id cid0).2.1 = some cid := by
  rcases hs : step1 env space_id question cid0 with ⟨r, tr⟩
  rw [hs] at h1
  simp only at h1
  subst h1
  rcases ha : askRest env space_id im with ⟨r2, tr2⟩
  rw [ha] at h2
  simp only at h2
  subst h2
  simp [ask_genie, hs, ha]

theorem step1_ok_cid (env : Env) (question space_id : String) (cid0 : Option String)
    (im : InitialMessage) (cid : String)
    (h : (step1 env space_id question cid0).1 = .ok (im, cid)) :
    cid = cid0.getD im.conversation_id := by
  cases cid0 with
  | none =>
    simp only [step1] at h
    cases he : env.start_conversation_and_wait space_id question with
    | ok m =>
      rw [he] at h
      simp only at h
      obtain ⟨h1, h2⟩ := Prod.mk.injEq .. ▸ Except.ok.injEq .. ▸ h
      simp_all
    | error e2 =>
      rw [he] at h
      simp at h
  | some c =>
    simp only [step1] at h
    cases he : env.create_message_and_wait space_id c question with
    | ok m =>
      rw [he] at h
      simp only at h
      obtain ⟨h1, h2⟩ := Prod.mk.injEq .. ▸ Except.ok.injEq .. ▸ h
      simp_all
    | error e2 =>
      rw [he] at h
      simp at h

theorem askRest_no_conv_calls (env : Env) (sid : String) (im : InitialMessage) :
    ∀ c ∈ (askRest env sid im).2,
      (∀ s q, c ≠ Call.startConv s q) ∧ (∀ s t q, c ≠ Call.createMsg s t q) := by
  intro c hc
  cases hq : im.query_result with
  | none =>
    cases hm : env.get_message sid im.conversation_id im.id <;>
      simp [askRest, hq, hm] at hc <;> subst hc <;>
      exact ⟨fun s q h => Call.noConfusion h, fun s t q h => Call.noConfusion h⟩
  | some u =>
    cases hqr : env.get_message_query_result sid im.conversation_id im.id with
    | error e =>
      simp [askRest, hq, hqr] at hc
      subst hc
      exact ⟨fun s q h => Call.noConfusion h, fun s t q h => Call.noConfusion h⟩
    | ok qr =>
      cases hm : env.get_message sid im.conversation_id im.id with
      | error e =>
        simp [askRest, hq, hqr, hm] at hc
        rcases hc with hc | hc <;> subst hc <;>
          exact ⟨fun s q h => Call.noConfusion h, fun s t q h => Call.noConfusion h⟩
      | ok mc =>
        cases hsr : qr.statement_response with
        | none =>
          simp [askRest, hq, hqr, hm, hsr] at hc
          rcases hc with hc | hc <;> subst hc <;>
            exact ⟨fun s q h => Call.noConfusion h, fun s t q h => Call.noConfusion h⟩
        | some sr =>
          cases hst : env.get_statement sr.statement_id with
          | error e =>
            simp [askRest, hq, hqr, hm, hsr, hst] at hc
            rcases hc with hc | hc | hc <;> subst hc <;>
              exact ⟨fun s q h => Call.noConfusion h, fun s t q h => Call.noConfusion h⟩
          | ok results =>
            cases hatt : mc.attachments <;>
              simp [askRest, hq, hqr, hm, hsr, hst, hatt] at hc <;>
              rcases hc with hc | hc | hc <;> subst hc <;>
                exact ⟨fun s q h => Call.noConfusion h, fun s t q h => Call.noConfusion h⟩

theorem ask_genie_trace_shape (env : Env) (q sid : String) (cid0 : Option String) :
    ∃ rest, (ask_genie env q sid cid0).2.2 = (step1 env sid q cid0).2 ++ rest ∧
      ∀ c ∈ rest, (∀ s q2, c ≠ Call.startConv s q2) ∧
        (∀ s t q2, c ≠ Call.createMsg s t q2) := by
  rcases hs : step1 env sid q cid0 with ⟨r, tr⟩
  cases r with
  | error e =>
    refine ⟨[], ?_, by simp⟩
    simp [ask_genie, hs]
  | ok p =>
    obtain ⟨im, cid⟩ := p
    rcases ha : askRest env sid im with ⟨r2, tr2⟩
    refine ⟨tr2, ?_, ?_⟩
    · cases r2 <;> simp [ask_genie, hs, ha]
    · intro c hc
      exact askRest_no_conv_calls env sid im c (by rw [ha]; exact hc)

theorem step1_trace_some (env : Env) (q sid cid : String) :
    (step1 env sid q (some cid)).2 = [Call.createMsg sid cid q] := rfl

theorem step1_trace_none (env : Env) (q sid : String) :
    (step1 env sid q none).2 = [Call.startConv sid q] := rfl

theorem ask_genie_trace_some (env : Env) (q sid cid : String) :
    Call.createMsg sid cid q ∈ (ask_genie env q sid (some cid)).2.2 ∧
    ∀ s qq, Call.startConv s qq ∉ (ask_genie env q sid (some cid)).2.2 := by
  obtain ⟨rest, hshape, hrest⟩ := ask_genie_trace_shape env q sid (some cid)
  rw [hshape, step1_trace_some]
  constructor
  · simp
  · intro s qq hmem
    simp [List.mem_cons] at hmem
    exact (hrest _ hmem).1 s qq rfl

theorem ask_genie_trace_none (env : Env) (q sid : String) :
    Call.startConv sid q ∈ (ask_genie env q sid none).2.2 ∧
    ∀ s t qq, Call.createMsg s t qq ∉ (ask_genie env q sid none).2.2 := by
  obtain ⟨rest, hshape, hrest⟩ := ask_genie_trace_shape env q sid none
  rw [hshape, step1_trace_none]
  constructor
  · simp
  · intro s t qq hmem
    simp [List.mem_cons] at hmem
    exact (hrest _ hmem).2 s t qq rfl

theorem regFind_set_self (m : Registry) (k : String) (v : Option String) :
    regFind (regSet m k v) k = some v := by
  induction m with
  | nil => simp [regSet, regFind]
  | cons p r ih =>
    obtain ⟨k2, v2⟩ := p
    by_cases h : k2 = k
    · simp [regSet, regFind, h]
    · simp [regSet, regFind, h, ih]

theorem regGet_set_self (m : Registry) (k : String) (v : Option String) :
    regGet (regSet m k v) k = v := by
  simp [regGet, regFind_set_self]

theorem regGet_of_find_none (m : Registry) (k : String) (h : regFind m k = none) :
    regGet m k = none := by
  simp [regGet, h]

/-! ### C1: the orchestrator catches every failure into the fixed payload -/

/-- C1: whenever a step of `ask_genie` raises, the function returns the
fixed generic error payload (never the exception detail), paired with the
conversation id current at the failure: the input id (possibly absent) when
step 1 failed, otherwise the id resolved by step 1 — the fresh id on a new
conversation, the unchanged input id on a follow-up. -/
theorem genie_C1 (env : Env) (question space_id : String) (cid0 : Option String) :
    (∀ e, (step1 env space_id question cid0).1 = .error e →
      ask_genie env question space_id cid0 =
        (errorPayload, cid0, (step1 env space_id question cid0).2)) ∧
    (∀ im cid e, (step1 env space_id question cid0).1 = .ok (im, cid) →
      (askRest env space_id im).1 = .error e →
      (ask_genie env question space_id cid0).1 = errorPayload ∧
      (ask_genie env question space_id cid0).2.1 = some cid) ∧
    (∀ im cid, (step1 env space_id question cid0).1 = .ok (im, cid) →
      cid = cid0.getD im.conversation_id) :=
  ⟨fun e h => ask_genie_step1_error env question space_id cid0 e h,
   fun im cid e h1 h2 => ask_genie_rest_error env question space_id cid0 im cid e h1 h2,
   fun im cid h => step1_ok_cid env question space_id cid0 im cid h⟩

/-- Witness for C1: a backend that fails at step 1 keeps the input id, and a
backend that fails after step 1 returns the freshly resolved id `T1`. -/
theorem genie_C1_witness :
    (ask_genie envFail "q" "s" (some "C") =
      (errorPayload, some "C", (step1 envFail "s" "q" (some "C")).2)) ∧
    ((ask_genie envHalf "q" "s" none).1 = errorPayload ∧
     (ask_genie envHalf "q" "s" none).2.1 = some "T1") :=
  ⟨(genie_C1 envFail "q" "s" (some "C")).1 "boom" rfl,
   (genie_C1 envHalf "q" "s" none).2.1 ⟨"T1", "m1", none⟩ "T1" "boom" rfl rfl⟩

/-! ### C2: the handler always stores the returned id and continues threads -/

/-- C2: for every inbound message the handler stores the conversation id
returned by `ask_genie` under the sender (even when the payload is the error
payload, the stored value is whatever the call returned), and a user whose
first message resolved thread `T1` has their second message sent through
`create_message_and_wait` with `T1`, never through
`start_conversation_and_wait`. -/
theorem genie_C2 (env : Env) (space : String) :
    (∀ (st : Registry) (u q ch : String),
      regFind (on_message_activity env space st u q ch).1 u =
        some (ask_genie env q space (regGet st u)).2.1) ∧
    (∀ (st : Registry) (u q1 q2 ch T1 : String),
      regGet st u = none →
      regGet (on_message_activity env space st u q1 ch).1 u = some T1 →
      Call.createMsg space T1 q2 ∈
        (on_message_activity env space (on_message_activity env space st u q1 ch).1
          u q2 ch).2.2 ∧
      ∀ s qq, Call.startConv s qq ∉
        (on_message_activity env space (on_message_activity env space st u q1 ch).1
          u q2 ch).2.2) := by
  constructor
  · intro st u q ch
    exact regFind_set_self st u (ask_genie env q space (regGet st u)).2.1
  · intro st u q1 q2 ch T1 h0 h1
    have htrace : (on_message_activity env space
        (on_message_activity env space st u q1 ch).1 u q2 ch).2.2 =
        (ask_genie env q2 space
          (regGet (on_message_activity env space st u q1 ch).1 u)).2.2 := rfl
    rw [htrace, h1]
    exact ask_genie_trace_some env q2 space T1

/-- Witness for C2: with a backend answering on thread `T1`, the first
message stores `T1` and the second goes through the follow-up call. -/
theorem genie_C2_witness :
    regFind (on_message_activity envMsg "s" [] "u" "q1" "t").1 "u" =
      some (ask_genie envMsg "q1" "s" (regGet [] "u")).2.1 ∧
    (Call.createMsg "s" "T1" "q2" ∈
      (on_message_activity envMsg "s" (on_message_activity envMsg "s" [] "u" "q1" "t").1
        "u" "q2" "t").2.2 ∧
     ∀ s qq, Call.startConv s qq ∉
      (on_message_activity envMsg "s" (on_message_activity envMsg "s" [] "u" "q1" "t").1
        "u" "q2" "t").2.2) :=
  ⟨(genie_C2 envMsg "s").1 [] "u" "q1" "t",
   (genie_C2 envMsg "s").2 [] "u" "q1" "q2" "t" "T1" rfl rfl⟩

/-! ### C9: a failed first contact leaves no usable session -/

/-- C9: when the orchestrator fails before any conversation id exists on a
first message, the handler stores Python `None` under the user, the
registry lookup on the next message yields nothing, and that next message
goes through `start_conversation_and_wait`, never the follow-up call. -/
theorem genie_C9 (env : Env) (space : String) (st : Registry) (u q1 q2 ch e : String)
    (h0 : regFind st u = none)
    (h1 : (step1 env space q1 none).1 = .error e) :
    regFind (on_message_activity env space st u q1 ch).1 u = some none ∧
    regGet (on_message_activity env space st u q1 ch).1 u = none ∧
    Call.startConv space q2 ∈
      (on_message_activity env space (on_message_activity env space st u q1 ch).1
        u q2 ch).2.2 ∧
    ∀ s t qq, Call.createMsg s t qq ∉
      (on_message_activity env space (on_message_activity env space st u q1 ch).1
        u q2 ch).2.2 := by
  have hget0 : regGet st u = none := regGet_of_find_none st u h0
  have hask : ask_genie env q1 space (regGet st u) =
      (errorPayload, none, (step1 env space q1 none).2) := by
    rw [hget0]
    exact ask_genie_step1_error env q1 space none e h1
  have hfind : regFind (on_message_activity env space st u q1 ch).1 u =
      some (ask_genie env q1 space (regGet st u)).2.1 :=
    regFind_set_self st u _
  have hfind2 : regFind (on_message_activity env space st u q1 ch).1 u = some none := by
    rw [hfind, hask]
  have hget1 : regGet (on_message_activity env space st u q1 ch).1 u = none := by
    simp [regGet, hfind2]
  have htrace : (on_message_activity env space
      (on_message_activity env space st u q1 ch).1 u q2 ch).2.2 =
      (ask_genie env q2 space
        (regGet (on_message_activity env space st u q1 ch).1 u)).2.2 := rfl
  refine ⟨hfind2, hget1, ?_, ?_⟩
  · rw [htrace, hget1]
    exact (ask_genie_trace_none env q2 space).1
  · intro s t qq
    rw [htrace, hget1]
    exact (ask_genie_trace_none env q2 space).2 s t qq

/-- Witness for C9 on the all-failing backend. -/
theorem genie_C9_witness :
    regFind (on_message_activity envFail "s" [] "u" "q1" "t").1 "u" = some none ∧
    regGet (on_message_activity envFail "s" [] "u" "q1" "t").1 "u" = none ∧
    Call.startConv "s" "q2" ∈
      (on_message_activity envFail "s" (on_message_activity envFail "s" [] "u" "q1" "t").1
        "u" "q2" "t").2.2 ∧
    ∀ s t qq, Call.createMsg s t qq ∉
      (on_message_activity envFail "s" (on_message_activity envFail "s" [] "u" "q1" "t").1
        "u" "q2" "t").2.2 :=
  genie_C9 envFail "s" [] "u" "q1" "q2" "t" "boom" rfl rfl

/-! ### List helper lemmas for the slack table loops -/

theorem take_set_succ {α : Type} (l : List α) (i : Nat) (x : α) (h : i < l.length) :
    (l.set i x).take (i + 1) = l.take i ++ [x] := by
  induction l generalizing i with
  | nil => simp at h
  | cons a t ih =>
    cases i with
    | zero => simp
    | succ j => simp_all [List.set, List.take_succ_cons]

theorem drop_set_succ {α : Type} (l : List α) (i : Nat) (x : α) :
    (l.set i x).drop (i + 1) = l.drop (i + 1) := by
  induction l generalizing i with
  | nil => simp
  | cons a t ih =>
    cases i with
    | zero => simp
    | succ j => simp_all [List.set]

theorem getD_zipWith_max :
    ∀ (a b : List Nat) (i : Nat), i < a.length → i < b.length →
      (List.zipWith max a b).getD i 0 = max (a.getD i 0) (b.getD i 0) := by
  intro a
  induction a with
  | nil => intro b i h1 _; simp at h1
  | cons x xs ih =>
    intro b i h1 h2
    cases b with
    | nil => simp at h2
    | cons y ys =>
      cases i with
      | zero => simp
      | succ j =>
        simp only [List.zipWith, List.getD_cons_succ]
        exact ih ys j (by simpa using h1) (by simpa using h2)

theorem getD_map_length :
    ∀ (l : List String) (i : Nat), i < l.length →
      (l.map String.length).getD i 0 = (l.getD i "").length := by
  intro l
  induction l with
  | nil => intro i h; simp at h
  | cons s t ih =>
    intro i h
    cases i with
    | zero => simp
    | succ j =>
      simp only [List.map_cons, List.getD_cons_succ]
      exact ih j (by simpa using h)

theorem foldl_max_acc (f : List String → Nat) :
    ∀ (l : List (List String)) (a : Nat),
      l.foldl (fun x r => max x (f r)) a = max a (l.foldl (fun x r => max x (f r)) 0) := by
  intro l
  induction l with
  | nil => intro a; simp
  | cons r rest ih =>
    intro a
    simp only [List.foldl_cons]
    rw [ih (max a (f r)), ih (max 0 (f r))]
    simp [Nat.max_assoc]

theorem columnMax_cons (fr : List String) (frows : List (List String)) (i : Nat) :
    columnMax (fr :: frows) i = max ((fr.getD i "").length) (columnMax frows i) := by
  unfold columnMax
  simp only [List.foldl_cons]
  rw [foldl_max_acc (fun r => (r.getD i "").length) frows (max 0 ((fr.getD i "").length))]
  simp

theorem widths_fold_getD (n : Nat) :
    ∀ (frows : List (List String)) (ws : List Nat),
      ws.length = n → (∀ fr ∈ frows, fr.length = n) → ∀ i, i < n →
      (frows.foldl widthStep ws).getD i 0 = max (ws.getD i 0) (columnMax frows i) := by
  intro frows
  induction frows with
  | nil =>
    intro ws _ _ i _
    simp [columnMax]
  | cons fr rest ih =>
    intro ws h1 h2 i hi
    simp only [List.foldl_cons]
    have hfr : fr.length = n := h2 fr (List.mem_cons_self fr rest)
    have hws2 : (widthStep ws fr).length = n := by
      simp [widthStep, List.length_zipWith, h1, hfr]
    rw [ih (widthStep ws fr) hws2 (fun r hr => h2 r (List.mem_cons_of_mem _ hr)) i hi]
    rw [show (widthStep ws fr).getD i 0 = max (ws.getD i 0) ((fr.map String.length).getD i 0)
      from getD_zipWith_max ws (fr.map String.length) i (by omega) (by simp [hfr]; omega)]
    rw [getD_map_length fr i (by omega)]
    rw [columnMax_cons]
    exact Nat.max_assoc (ws.getD i 0) ((fr.getD i "").length) (columnMax rest i)

theorem slackRowLoop_ok (cols : List PyVal) :
    ∀ (cells : List PyVal) (i : Nat) (widths : List Nat),
      widths.length = cols.length →
      i + cells.length = cols.length →
      (∀ p ∈ cells.zip (cols.drop i), ∃ s, format_cell_slack p.1 p.2 = .ok s) →
      ∃ fr, slackRowLoop cols cells i widths =
          .ok (widths.take i ++ List.zipWith max (widths.drop i) (fr.map String.length), fr) ∧
        fr.length = cells.length := by
  intro cells
  induction cells with
  | nil =>
    intro i widths hlen hsum _
    refine ⟨[], ?_, rfl⟩
    simp only [List.length_nil] at hsum
    have hiw : i = widths.length := by omega
    subst hiw
    simp [slackRowLoop]
  | cons v rest ih =>
    intro i widths hlen hsum hfmt
    have hi : i < cols.length := by
      simp only [List.length_cons] at hsum
      omega
    have hiw : i < widths.length := by omega
    have hcol : cols[i]? = some cols[i] := List.getElem?_eq_getElem hi
    have hdrop : cols.drop i = cols[i] :: cols.drop (i + 1) := List.drop_eq_getElem_cons hi
    obtain ⟨s, hs⟩ : ∃ s, format_cell_slack v cols[i] = .ok s := by
      refine hfmt (v, cols[i]) ?_
      rw [hdrop, List.zip_cons_cons]
      exact List.mem_cons_self _ _
    have hwid : widths[i]? = some widths[i] := List.getElem?_eq_getElem hiw
    have hlen2 : (widths.set i (max widths[i] s.length)).length = cols.length := by
      simp [hlen]
    have hsum2 : (i + 1) + rest.length = cols.length := by
      simp only [List.length_cons] at hsum
      omega
    have hfmt2 : ∀ p ∈ rest.zip (cols.drop (i + 1)), ∃ s2, format_cell_slack p.1 p.2 = .ok s2 := by
      intro p hp
      apply hfmt
      rw [hdrop]
      simp only [List.zip_cons_cons]
      exact List.mem_cons_of_mem _ hp
    obtain ⟨fr, hfr, hfrlen⟩ := ih (i + 1) (widths.set i (max widths[i] s.length)) hlen2 hsum2 hfmt2
    refine ⟨s :: fr, ?_, by simp [hfrlen]⟩
    have key : List.take i widths ++
        List.zipWith max (List.drop i widths) (List.map String.length (s :: fr)) =
        List.take (i + 1) (widths.set i (max widths[i] s.length)) ++
        List.zipWith max (List.drop (i + 1) (widths.set i (max widths[i] s.length)))
          (List.map String.length fr) := by
      rw [take_set_succ widths i _ hiw, drop_set_succ]
      rw [List.drop_eq_getElem_cons hiw]
      simp [List.zipWith]
    simp only [slackRowLoop, hcol, hs, hwid, hfr, Bind.bind, Except.bind, pure, Except.pure]
    rw [key]

theorem slackRowsLoop_ok (cols : List PyVal) :
    ∀ (rows : List PyVal) (widths : List Nat),
      widths.length = cols.length →
      (∀ r ∈ rows, ∃ cells, r = .plist cells ∧ cells.length = cols.length ∧
        ∀ p ∈ cells.zip cols, ∃ s, format_cell_slack p.1 p.2 = .ok s) →
      ∃ frows, slackRowsLoop cols rows widths = .ok (frows.foldl widthStep widths, frows) ∧
        frows.length = rows.length ∧ ∀ fr ∈ frows, fr.length = cols.length := by
  intro rows
  induction rows with
  | nil =>
    intro widths _ _
    exact ⟨[], by simp [slackRowsLoop], rfl, by simp⟩
  | cons r rest ih =>
    intro widths h1 h2
    obtain ⟨cells, hrr, hclen, hfmt⟩ := h2 r (List.mem_cons_self r rest)
    have hfmt0 : ∀ p ∈ cells.zip (cols.drop 0), ∃ s, format_cell_slack p.1 p.2 = .ok s := by
      simpa using hfmt
    obtain ⟨fr, hloop, hfrlen⟩ :=
      slackRowLoop_ok cols cells 0 widths h1 (by omega) hfmt0
    have hloop2 : slackRowLoop cols cells 0 widths = .ok (widthStep widths fr, fr) := by
      rw [hloop]
      simp [widthStep]
    have hlen2 : (widthStep widths fr).length = cols.length := by
      simp [widthStep, List.length_zipWith, h1, hfrlen, hclen]
    obtain ⟨frows, hrest, hlenrest, hall⟩ :=
      ih (widthStep widths fr) hlen2 (fun r2 hr2 => h2 r2 (List.mem_cons_of_mem _ hr2))
    refine ⟨fr :: frows, ?_, by simp [hlenrest], ?_⟩
    · subst hrr
      simp [slackRowsLoop, pyIter, hloop2, hrest, Bind.bind, Except.bind, List.foldl_cons]
    · intro fr2 hfr2
      rcases List.mem_cons.mp hfr2 with h | h
      · subst h
        rw [hfrlen, hclen]
      · exact hall fr2 h

/-! ### Pipeline characterization of the slack renderer -/

theorem process_for_slack_spec
    (kvs ckvs dkvs : List (String × PyVal)) (cols rows : List PyVal)
    (hc : dictLookup kvs "columns" = some (.pdict ckvs))
    (hcc : dictLookup ckvs "columns" = some (.plist cols))
    (hd : dictLookup kvs "data" = some (.pdict dkvs))
    (hda : dictLookup dkvs "data_array" = some (.plist rows))
    (hn : ∀ c ∈ cols, ∃ nm, getNameStr c = .ok nm)
    (hr : ∀ r ∈ rows, ∃ cells, r = .plist cells ∧ cells.length = cols.length ∧
      ∀ p ∈ cells.zip cols, ∃ s, format_cell_slack p.1 p.2 = .ok s) :
    ∃ dblocks names frows,
      descBlocksSlack (.pdict kvs) = .ok dblocks ∧
      mapE getNameStr cols = .ok names ∧
      slackRowsLoop cols rows (names.map String.length) =
        .ok (frows.foldl widthStep (names.map String.length), frows) ∧
      process_for_slack (.pdict kvs) = .ok (dblocks ++ [resultsHeaderBlock,
        .section (.pstr ("```" ++ truncateTable (slackTableStr names
          (frows.foldl widthStep (names.map String.length)) frows) ++ "```"))]) ∧
      names.length = cols.length ∧ frows.length = rows.length ∧
      (∀ fr ∈ frows, fr.length = cols.length) ∧
      (∀ i, i < cols.length →
        (frows.foldl widthStep (names.map String.length)).getD i 0 =
          max ((names.getD i "").length) (columnMax frows i)) := by
  obtain ⟨dblocks, hdb⟩ := descBlocksSlack_pdict kvs
  obtain ⟨names, hnames, hf2⟩ := mapE_ok getNameStr cols hn
  have hnlen : names.length = cols.length := (List.Forall₂.length_eq hf2).symm
  have hwlen : (names.map String.length).length = cols.length := by simp [hnlen]
  obtain ⟨frows, hloop, hflen, hall⟩ :=
    slackRowsLoop_ok cols rows (names.map String.length) hwlen hr
  refine ⟨dblocks, names, frows, hdb, hnames, hloop, ?_, hnlen, hflen, hall, ?_⟩
  · unfold process_for_slack
    simp only [hdb, pyContains, hc, hd, hcc, hda, pySubscript, pyIter, hnames, hloop,
      Option.isSome_some, Bind.bind, Except.bind, pure, Except.pure, if_true]
  · intro i hi
    rw [widths_fold_getD cols.length frows (names.map String.length) hwlen hall i hi]
    rw [getD_map_length names i (by omega)]

theorem truncateTable_long (t : String) (h : 2950 < t.length) :
    truncateTable t = pySlice t 2950 ++ "..." ∧ (truncateTable t).length = 2953 := by
  have hcond : t.length > 2950 := h
  constructor
  · unfold truncateTable
    rw [if_pos hcond]
  · unfold truncateTable
    rw [if_pos hcond]
    rw [String.length_append]
    have h1 : (pySlice t 2950).length = 2950 := by
      show (t.data.take 2950).length = 2950
      rw [List.length_take]
      have ht : t.length = t.data.length := rfl
      omega
    have h2 : ("..." : String).length = 3 := rfl
    omega

theorem truncateTable_short (t : String) (h : t.length ≤ 2950) :
    truncateTable t = t := by
  unfold truncateTable
  rw [if_neg (by omega)]
  have ht : t.data.take 2950 = t.data := List.take_of_length_le (by
    have : t.length = t.data.length := rfl
    omega)
  show String.mk (t.data.take 2950) ++ "" = t
  rw [ht]
  exact String.append_empty t

theorem descBlocksSlack_desc (kvs : List (String × PyVal)) (d : String)
    (hdesc : dictLookup kvs "query_description" = some (.pstr d)) (hdne : d ≠ "") :
    descBlocksSlack (.pdict kvs) =
      .ok [.section (.pstr ("*Query Description:*\n" ++ d)), .divider] := by
  unfold descBlocksSlack
  simp [pyContains, hdesc, pySubscript, pyTruthy, hdne, Bind.bind, Except.bind, pure,
    Except.pure, pyStr]

/-! ### C7: slack table layout -/

/-- C7: on every well-formed tabular payload, the slack renderer pads each
column to a display width equal to the maximum of the header name width and
the widest formatted cell of that column, and wraps the table in a
preformatted (triple-backquote) block after the results header; when a
non-empty description is present, the block sequence begins with the
description section followed by a divider. -/
theorem genie_C7
    (kvs ckvs dkvs : List (String × PyVal)) (cols rows : List PyVal)
    (hc : dictLookup kvs "columns" = some (.pdict ckvs))
    (hcc : dictLookup ckvs "columns" = some (.plist cols))
    (hd : dictLookup kvs "data" = some (.pdict dkvs))
    (hda : dictLookup dkvs "data_array" = some (.plist rows))
    (hn : ∀ c ∈ cols, ∃ nm, getNameStr c = .ok nm)
    (hr : ∀ r ∈ rows, ∃ cells, r = .plist cells ∧ cells.length = cols.length ∧
      ∀ p ∈ cells.zip cols, ∃ s, format_cell_slack p.1 p.2 = .ok s) :
    ∃ dblocks names frows,
      descBlocksSlack (.pdict kvs) = .ok dblocks ∧
      mapE getNameStr cols = .ok names ∧
      slackRowsLoop cols rows (names.map String.length) =
        .ok (frows.foldl widthStep (names.map String.length), frows) ∧
      process_for_slack (.pdict kvs) = .ok (dblocks ++ [resultsHeaderBlock,
        .section (.pstr ("```" ++ truncateTable (slackTableStr names
          (frows.foldl widthStep (names.map String.length)) frows) ++ "```"))]) ∧
      names.length = cols.length ∧ frows.length = rows.length ∧
      (∀ i, i < cols.length →
        (frows.foldl widthStep (names.map String.length)).getD i 0 =
          max ((names.getD i "").length) (columnMax frows i)) ∧
      (∀ d, dictLookup kvs "query_description" = some (.pstr d) → d ≠ "" →
        dblocks = [.section (.pstr ("*Query Description:*\n" ++ d)), .divider]) := by
  obtain ⟨dblocks, names, frows, hdb, hnames, hloop, hout, hnlen, hflen, _, hwidths⟩ :=
    process_for_slack_spec kvs ckvs dkvs cols rows hc hcc hd hda hn hr
  refine ⟨dblocks, names, frows, hdb, hnames, hloop, hout, hnlen, hflen, hwidths, ?_⟩
  intro d hdesc hdne
  have hdb2 := descBlocksSlack_desc kvs d hdesc hdne
  rw [hdb] at hdb2
  exact Except.ok.inj hdb2

/-- Witness for C7 at a one-column, one-row payload carrying the non-empty
description `d`. -/
theorem genie_C7_witness :
    ∃ dblocks names frows,
      descBlocksSlack (.pdict [("query_description", .pstr "d"),
        ("columns", .pdict [("columns",
          .plist [.pdict [("name", .pstr "a"), ("type_name", .pstr "STRING")]])]),
        ("data", .pdict [("data_array", .plist [.plist [.pstr "xyz"]])])]) =
        .ok dblocks ∧
      mapE getNameStr [.pdict [("name", .pstr "a"), ("type_name", .pstr "STRING")]] =
        .ok names ∧
      slackRowsLoop [.pdict [("name", .pstr "a"), ("type_name", .pstr "STRING")]]
        [.plist [.pstr "xyz"]] (names.map String.length) =
        .ok (frows.foldl widthStep (names.map String.length), frows) ∧
      process_for_slack (.pdict [("query_description", .pstr "d"),
        ("columns", .pdict [("columns",
          .plist [.pdict [("name", .pstr "a"), ("type_name", .pstr "STRING")]])]),
        ("data", .pdict [("data_array", .plist [.plist [.pstr "xyz"]])])]) =
        .ok (dblocks ++ [resultsHeaderBlock,
          .section (.pstr ("```" ++ truncateTable (slackTableStr names
            (frows.foldl widthStep (names.map String.length)) frows) ++ "```"))]) ∧
      names.length = 1 ∧
      frows.length = 1 ∧
      (∀ i, i < 1 →
        (frows.foldl widthStep (names.map String.length)).getD i 0 =
          max ((names.getD i "").length) (columnMax frows i)) ∧
      (∀ d, dictLookup [("query_description", .pstr "d"),
          ("columns", .pdict [("columns",
            .plist [.pdict [("name", .pstr "a"), ("type_name", .pstr "STRING")]])]),
          ("data", .pdict [("data_array", .plist [.plist [.pstr "xyz"]])])]
          "query_description" = some (.pstr d) → d ≠ "" →
        dblocks = [.section (.pstr ("*Query Description:*\n" ++ d)), .divider]) :=
  genie_C7 [("query_description", .pstr "d"),
      ("columns", .pdict [("columns",
        .plist [.pdict [("name", .pstr "a"), ("type_name", .pstr "STRING")]])]),
      ("data", .pdict [("data_array", .plist [.plist [.pstr "xyz"]])])]
    [("columns", .plist [.pdict [("name", .pstr "a"), ("type_name", .pstr "STRING")]])]
    [("data_array", .plist [.plist [.pstr "xyz"]])]
    [.pdict [("name", .pstr "a"), ("type_name", .pstr "STRING")]]
    [.plist [.pstr "xyz"]] rfl rfl rfl rfl
    (by
      intro c hc
      simp only [List.mem_singleton] at hc
      subst hc
      exact ⟨"a", rfl⟩)
    (by
      intro r hr
      simp only [List.mem_singleton] at hr
      subst hr
      refine ⟨[.pstr "xyz"], rfl, rfl, ?_⟩
      intro p hp
      simp only [List.zip_cons_cons, List.zip_nil_left, List.mem_singleton] at hp
      subst hp
      exact ⟨"xyz", rfl⟩)

/-! ### C3: table truncation in the slack renderer -/

/-- C3 (amended): the table text placed in the preformatted block is
`table[:2950]` plus an ellipsis exactly when the rendering exceeds 2950
characters — the emitted text is then exactly 2953 characters, staying
under the 3000-character transport ceiling although above 2950 itself —
and the rendering is emitted whole, with no ellipsis, when it is at most
2950 characters. -/
theorem genie_C3
    (kvs ckvs dkvs : List (String × PyVal)) (cols rows : List PyVal)
    (hc : dictLookup kvs "columns" = some (.pdict ckvs))
    (hcc : dictLookup ckvs "columns" = some (.plist cols))
    (hd : dictLookup kvs "data" = some (.pdict dkvs))
    (hda : dictLookup dkvs "data_array" = some (.plist rows))
    (hn : ∀ c ∈ cols, ∃ nm, getNameStr c = .ok nm)
    (hr : ∀ r ∈ rows, ∃ cells, r = .plist cells ∧ cells.length = cols.length ∧
      ∀ p ∈ cells.zip cols, ∃ s, format_cell_slack p.1 p.2 = .ok s) :
    ∃ dblocks names frows tbl,
      descBlocksSlack (.pdict kvs) = .ok dblocks ∧
      mapE getNameStr cols = .ok names ∧
      tbl = slackTableStr names (frows.foldl widthStep (names.map String.length)) frows ∧
      process_for_slack (.pdict kvs) = .ok (dblocks ++ [resultsHeaderBlock,
        .section (.pstr ("```" ++ truncateTable tbl ++ "```"))]) ∧
      (2950 < tbl.length →
        truncateTable tbl = pySlice tbl 2950 ++ "..." ∧
        (truncateTable tbl).length = 2953) ∧
      (tbl.length ≤ 2950 → truncateTable tbl = tbl) := by
  obtain ⟨dblocks, names, frows, hdb, hnames, hloop, hout, _, _, _, _⟩ :=
    process_for_slack_spec kvs ckvs dkvs cols rows hc hcc hd hda hn hr
  exact ⟨dblocks, names, frows, _, hdb, hnames, rfl, hout,
    fun h => truncateTable_long _ h, fun h => truncateTable_short _ h⟩

/-- Witness for C3 at a small payload whose rendering stays below the
threshold. -/
theorem genie_C3_witness :
    ∃ dblocks names frows tbl,
      descBlocksSlack (.pdict [("columns", .pdict [("columns",
        .plist [.pdict [("name", .pstr "a"), ("type_name", .pstr "STRING")]])]),
        ("data", .pdict [("data_array", .plist [])])]) = .ok dblocks ∧
      mapE getNameStr [.pdict [("name", .pstr "a"), ("type_name", .pstr "STRING")]] =
        .ok names ∧
      tbl = slackTableStr names (frows.foldl widthStep (names.map String.length)) frows ∧
      process_for_slack (.pdict [("columns", .pdict [("columns",
        .plist [.pdict [("name", .pstr "a"), ("type_name", .pstr "STRING")]])]),
        ("data", .pdict [("data_array", .plist [])])]) =
        .ok (dblocks ++ [resultsHeaderBlock,
          .section (.pstr ("```" ++ truncateTable tbl ++ "```"))]) ∧
      (2950 < tbl.length →
        truncateTable tbl = pySlice tbl 2950 ++ "..." ∧
        (truncateTable tbl).length = 2953) ∧
      (tbl.length ≤ 2950 → truncateTable tbl = tbl) :=
  genie_C3 [("columns", .pdict [("columns",
      .plist [.pdict [("name", .pstr "a"), ("type_name", .pstr "STRING")]])]),
      ("data", .pdict [("data_array", .plist [])])]
    [("columns", .plist [.pdict [("name", .pstr "a"), ("type_name", .pstr "STRING")]])]
    [("data_array", .plist [])]
    [.pdict [("name", .pstr "a"), ("type_name", .pstr "STRING")]] [] rfl rfl rfl rfl
    (by
      intro c hc
      simp only [List.mem_singleton] at hc
      subst hc
      exact ⟨"a", rfl⟩)
    (by intro r hr; simp at hr)

theorem pyStrMul_dash_length (n : Nat) : (pyStrMul "-" n).length = n := by
  show (List.replicate n ['-']).flatten.length = n
  rw [List.length_flatten]
  simp

theorem c3name_length : c3name.length = 3000 := by
  show (List.replicate 3000 'a').length = 3000
  exact List.length_replicate 3000 'a'

theorem pyLjust_c3name : pyLjust c3name 3000 = c3name := by
  unfold pyLjust
  rw [c3name_length]
  show c3name ++ String.mk (List.replicate 0 ' ') = c3name
  rw [show String.mk (List.replicate 0 ' ') = "" from rfl]
  exact String.append_empty c3name

theorem c3table_length : c3table.length = 6002 := by
  have h1 : c3table = pyLjust c3name 3000 ++ "\n" ++ pyStrMul "-" 3000 ++ "\n" ++ "" := rfl
  rw [h1, pyLjust_c3name]
  rw [String.length_append, String.length_append, String.length_append,
    String.length_append]
  rw [c3name_length, pyStrMul_dash_length]
  rfl

/-- Counterexample to C3 as stated: a payload whose table rendering is 6002
characters long produces a block text of `table[:2950] ++ "..."`, which is
2953 characters — the emitted table text exceeds the claimed 2950-character
limit. -/
theorem genie_C3_cex :
    process_for_slack c3cex = .ok [resultsHeaderBlock,
      .section (.pstr ("```" ++ (pySlice c3table 2950 ++ "...") ++ "```"))] ∧
    (pySlice c3table 2950 ++ "...").length = 2953 ∧ 2950 < 2953 := by
  have hlong := truncateTable_long c3table (by rw [c3table_length]; omega)
  obtain ⟨dblocks, names, frows, hdb, hnames, hloop, hout, _, _, _, _⟩ :=
    process_for_slack_spec
      [("columns", .pdict [("columns",
        .plist [.pdict [("name", .pstr c3name), ("type_name", .pstr "STRING")]])]),
       ("data", .pdict [("data_array", .plist [])])]
      [("columns", .plist [.pdict [("name", .pstr c3name), ("type_name", .pstr "STRING")]])]
      [("data_array", .plist [])]
      [.pdict [("name", .pstr c3name), ("type_name", .pstr "STRING")]] []
      rfl rfl rfl rfl
      (by
        intro c hc
        simp only [List.mem_singleton] at hc
        subst hc
        exact ⟨c3name, rfl⟩)
      (by intro r hr; simp at hr)
  have e0 : dblocks = [] := by
    have h2 : descBlocksSlack (.pdict [("columns", .pdict [("columns",
        .plist [.pdict [("name", .pstr c3name), ("type_name", .pstr "STRING")]])]),
       ("data", .pdict [("data_array", .plist [])])]) =
        Except.ok ([] : List SlackBlock) := rfl
    rw [h2] at hdb
    exact (Except.ok.inj hdb).symm
  have e1 : names = [c3name] := by
    have h2 : mapE getNameStr
        [PyVal.pdict [("name", .pstr c3name), ("type_name", .pstr "STRING")]] =
        Except.ok [c3name] := rfl
    rw [h2] at hnames
    exact (Except.ok.inj hnames).symm
  subst e0
  subst e1
  have e2 : frows = [] := by
    have hcomp : slackRowsLoop
        [PyVal.pdict [("name", .pstr c3name), ("type_name", .pstr "STRING")]] []
        ([c3name].map String.length) = .ok ([c3name].map String.length, []) := rfl
    rw [hcomp] at hloop
    exact (Prod.ext_iff.mp (Except.ok.inj hloop)).2.symm
  subst e2
  have htbl : slackTableStr [c3name]
      (([] : List (List String)).foldl widthStep ([c3name].map String.length)) [] =
      c3table := by
    show slackTableStr [c3name] [c3name.length] [] = c3table
    rw [c3name_length]
    exact rfl
  rw [htbl] at hout
  rw [hlong.1] at hout
  refine ⟨by simpa using hout, ?_, by omega⟩
  have := hlong.2
  rw [hlong.1] at this
  exact this

/-! ### Pipeline characterization of the plain renderer -/

theorem plainRowFun_ok (cols : List PyVal) (r : PyVal) (cells : List PyVal)
    (hrr : r = .plist cells) (hclen : cells.length = cols.length)
    (hfmt : ∀ p ∈ cells.zip cols, ∃ s, format_cell_plain p.1 p.2 = .ok s) :
    ∃ cs, plainRowFun cols r = .ok (mkRowLine cs) ∧ cs.length = cols.length := by
  subst hrr
  obtain ⟨cs, hcs, hf2⟩ := mapE_ok (fun p => format_cell_plain p.1 p.2) (cells.zip cols) hfmt
  refine ⟨cs, ?_, ?_⟩
  · simp [plainRowFun, pyIter, hcs, Bind.bind, Except.bind, pure, Except.pure]
  · have hlen := List.Forall₂.length_eq hf2
    rw [List.length_zip, hclen, Nat.min_self] at hlen
    exact hlen.symm

theorem plain_body_ok (cols : List PyVal) :
    ∀ rows : List PyVal,
      (∀ r ∈ rows, ∃ cells, r = .plist cells ∧ cells.length = cols.length ∧
        ∀ p ∈ cells.zip cols, ∃ s, format_cell_plain p.1 p.2 = .ok s) →
      ∃ cellRows : List (List String),
        mapE (plainRowFun cols) rows = .ok (cellRows.map mkRowLine) ∧
        cellRows.length = rows.length ∧ ∀ cs ∈ cellRows, cs.length = cols.length := by
  intro rows
  induction rows with
  | nil => intro _; exact ⟨[], rfl, rfl, by simp⟩
  | cons r rest ih =>
    intro h
    obtain ⟨cells, hrr, hclen, hfmt⟩ := h r (List.mem_cons_self r rest)
    obtain ⟨cs, hcs, hcslen⟩ := plainRowFun_ok cols r cells hrr hclen hfmt
    obtain ⟨cellRows, hmap, hlen, hall⟩ := ih fun r2 hr2 => h r2 (List.mem_cons_of_mem _ hr2)
    refine ⟨cs :: cellRows, ?_, by simp [hlen], ?_⟩
    · simp [mapE, hcs, hmap, Bind.bind, Except.bind, pure, Except.pure]
    · intro cs2 h2
      rcases List.mem_cons.mp h2 with h2 | h2
      · subst h2
        exact hcslen
      · exact hall _ h2

/-! ### C5: the plain markdown table has one row per entry -/

/-- C5: on a well-formed tabular payload, the markdown table of
`process_query_results` consists of a header built from one name per schema
column, a separator with one `---` per column, and exactly one emitted line
per entry of the row array, each with one formatted cell per column. -/
theorem genie_C5
    (kvs ckvs dkvs : List (String × PyVal)) (cols rows : List PyVal)
    (hc : dictLookup kvs "columns" = some (.pdict ckvs))
    (hcc : dictLookup ckvs "columns" = some (.plist cols))
    (hd : dictLookup kvs "data" = some (.pdict dkvs))
    (hda : dictLookup dkvs "data_array" = some (.plist rows))
    (hn : ∀ c ∈ cols, ∃ nm, getNameStr c = .ok nm)
    (hr : ∀ r ∈ rows, ∃ cells, r = .plist cells ∧ cells.length = cols.length ∧
      ∀ p ∈ cells.zip cols, ∃ s, format_cell_plain p.1 p.2 = .ok s) :
    ∃ (desc : String) (names : List String) (cellRows : List (List String)),
      plainDescPart (.pdict kvs) = .ok desc ∧
      mapE getNameStr cols = .ok names ∧
      process_query_results (.pdict kvs) = .ok (desc ++ "## Query Results\n\n" ++
        mkHeaderLine names ++ "\n" ++ mkSepLine cols.length ++ "\n" ++
        String.join (cellRows.map mkRowLine)) ∧
      names.length = cols.length ∧ cellRows.length = rows.length ∧
      ∀ cs ∈ cellRows, cs.length = cols.length := by
  obtain ⟨desc, hdesc⟩ := plainDescPart_pdict kvs
  obtain ⟨names, hnames, hf2⟩ := mapE_ok getNameStr cols hn
  obtain ⟨cellRows, hbody, hlen, hall⟩ := plain_body_ok cols rows hr
  refine ⟨desc, names, cellRows, hdesc, hnames, ?_,
    (List.Forall₂.length_eq hf2).symm, hlen, hall⟩
  unfold process_query_results
  simp only [hdesc, pyContains, hc, hd, hcc, hda, pySubscript, pyIter, hnames, hbody,
    Option.isSome_some, Bind.bind, Except.bind, pure, Except.pure, if_true]

/-- Witness for C5 at a one-column payload with two rows. -/
theorem genie_C5_witness :
    ∃ (desc : String) (names : List String) (cellRows : List (List String)),
      plainDescPart (.pdict [("columns", .pdict [("columns",
        .plist [.pdict [("name", .pstr "a"), ("type_name", .pstr "STRING")]])]),
        ("data", .pdict [("data_array",
          .plist [.plist [.pstr "x"], .plist [.pstr "yy"]])])]) = .ok desc ∧
      mapE getNameStr [.pdict [("name", .pstr "a"), ("type_name", .pstr "STRING")]] =
        .ok names ∧
      process_query_results (.pdict [("columns", .pdict [("columns",
        .plist [.pdict [("name", .pstr "a"), ("type_name", .pstr "STRING")]])]),
        ("data", .pdict [("data_array",
          .plist [.plist [.pstr "x"], .plist [.pstr "yy"]])])]) =
        .ok (desc ++ "## Query Results\n\n" ++ mkHeaderLine names ++ "\n" ++
          mkSepLine 1 ++ "\n" ++ String.join (cellRows.map mkRowLine)) ∧
      names.length = 1 ∧ cellRows.length = 2 ∧
      ∀ cs ∈ cellRows, cs.length = 1 :=
  genie_C5 [("columns", .pdict [("columns",
      .plist [.pdict [("name", .pstr "a"), ("type_name", .pstr "STRING")]])]),
      ("data", .pdict [("data_array",
        .plist [.plist [.pstr "x"], .plist [.pstr "yy"]])])]
    [("columns", .plist [.pdict [("name", .pstr "a"), ("type_name", .pstr "STRING")]])]
    [("data_array", .plist [.plist [.pstr "x"], .plist [.pstr "yy"]])]
    [.pdict [("name", .pstr "a"), ("type_name", .pstr "STRING")]]
    [.plist [.pstr "x"], .plist [.pstr "yy"]] rfl rfl rfl rfl
    (by
      intro c hc
      simp only [List.mem_singleton] at hc
      subst hc
      exact ⟨"a", rfl⟩)
    (by
      intro r hr
      simp only [List.mem_cons, List.mem_singleton] at hr
      rcases hr with hr | hr | hr
      · subst hr
        refine ⟨[.pstr "x"], rfl, rfl, ?_⟩
        intro p hp
        simp only [List.zip_cons_cons, List.zip_nil_left, List.mem_singleton] at hp
        subst hp
        exact ⟨"x", rfl⟩
      · subst hr
        refine ⟨[.pstr "yy"], rfl, rfl, ?_⟩
        intro p hp
        simp only [List.zip_cons_cons, List.zip_nil_left, List.mem_singleton] at hp
        subst hp
        exact ⟨"yy", rfl⟩
      · cases hr)

/-! ### C4 (amended): fallbacks when the tabular pair is absent -/

/-- C4 (amended): for every payload that does not carry both `columns` and
`data`, neither renderer raises — a payload with a `message` field renders
the message, and a payload with no recognized field (an Error payload in
particular) renders the fixed `No data available.` placeholder.  (As stated,
the claim fails: with both `columns` and `data` present but malformed
contents, the renderers can raise — see the counterexample.) -/
theorem genie_C4 (kvs : List (String × PyVal))
    (hcd : dictLookup kvs "columns" = none ∨ dictLookup kvs "data" = none) :
    ∃ (desc : String) (dblocks : List SlackBlock),
      plainDescPart (.pdict kvs) = .ok desc ∧
      descBlocksSlack (.pdict kvs) = .ok dblocks ∧
      (dictLookup kvs "message" = none →
        process_query_results (.pdict kvs) = .ok (desc ++ "No data available.\n\n") ∧
        process_for_slack (.pdict kvs) =
          .ok (dblocks ++ [.section (.pstr "No data available.")])) ∧
      (∀ m, dictLookup kvs "message" = some m →
        process_query_results (.pdict kvs) = .ok (desc ++ pyStr m ++ "\n\n") ∧
        process_for_slack (.pdict kvs) = .ok (dblocks ++ [.section m])) := by
  obtain ⟨desc, hdesc⟩ := plainDescPart_pdict kvs
  obtain ⟨dblocks, hdb⟩ := descBlocksSlack_pdict kvs
  refine ⟨desc, dblocks, hdesc, hdb, ?_, ?_⟩
  · intro hmsg
    constructor
    · unfold process_query_results
      rcases hcd with h | h
      · simp [hdesc, pyContains, h, hmsg, Bind.bind, Except.bind, pure, Except.pure]
      · cases hcv : dictLookup kvs "columns" with
        | none =>
          simp [hdesc, pyContains, hcv, hmsg, Bind.bind, Except.bind, pure, Except.pure]
        | some cv =>
          simp [hdesc, pyContains, hcv, h, hmsg, Bind.bind, Except.bind, pure, Except.pure]
    · unfold process_for_slack
      rcases hcd with h | h
      · simp [hdb, pyContains, h, hmsg, Bind.bind, Except.bind, pure, Except.pure]
      · cases hcv : dictLookup kvs "columns" with
        | none =>
          simp [hdb, pyContains, hcv, hmsg, Bind.bind, Except.bind, pure, Except.pure]
        | some cv =>
          simp [hdb, pyContains, hcv, h, hmsg, Bind.bind, Except.bind, pure, Except.pure]
  · intro m hmsg
    constructor
    · unfold process_query_results
      rcases hcd with h | h
      · simp [hdesc, pyContains, pySubscript, h, hmsg, Bind.bind, Except.bind, pure,
          Except.pure]
      · cases hcv : dictLookup kvs "columns" with
        | none =>
          simp [hdesc, pyContains, pySubscript, hcv, hmsg, Bind.bind, Except.bind, pure,
            Except.pure]
        | some cv =>
          simp [hdesc, pyContains, pySubscript, hcv, h, hmsg, Bind.bind, Except.bind,
            pure, Except.pure]
    · unfold process_for_slack
      rcases hcd with h | h
      · simp [hdb, pyContains, pySubscript, h, hmsg, Bind.bind, Except.bind, pure,
          Except.pure]
      · cases hcv : dictLookup kvs "columns" with
        | none =>
          simp [hdb, pyContains, pySubscript, hcv, hmsg, Bind.bind, Except.bind, pure,
            Except.pure]
        | some cv =>
          simp [hdb, pyContains, pySubscript, hcv, h, hmsg, Bind.bind, Except.bind,
            pure, Except.pure]

/-- Witness for C4 at an Error payload, which renders the placeholder. -/
theorem genie_C4_witness :
    ∃ (desc : String) (dblocks : List SlackBlock),
      plainDescPart (.pdict [("error", .pstr "X")]) = .ok desc ∧
      descBlocksSlack (.pdict [("error", .pstr "X")]) = .ok dblocks ∧
      (dictLookup [("error", .pstr "X")] "message" = none →
        process_query_results (.pdict [("error", .pstr "X")]) =
          .ok (desc ++ "No data available.\n\n") ∧
        process_for_slack (.pdict [("error", .pstr "X")]) =
          .ok (dblocks ++ [.section (.pstr "No data available.")])) ∧
      (∀ m, dictLookup [("error", .pstr "X")] "message" = some m →
        process_query_results (.pdict [("error", .pstr "X")]) =
          .ok (desc ++ pyStr m ++ "\n\n") ∧
        process_for_slack (.pdict [("error", .pstr "X")]) =
          .ok (dblocks ++ [.section m])) :=
  genie_C4 [("error", .pstr "X")] (Or.inl rfl)

/-! ### C10 (amended): the unexpected-format fallback of the slack renderer -/

/-- C10 (amended): with both `columns` and `data` present, the slack
renderer returns the description blocks followed by the fixed
`Unexpected data format received.` section whenever `columns` is not a dict
containing `columns`, or `data` is a dict lacking `data_array`.  (As stated,
the claim fails when `data` is a value that does not support membership
tests, such as a number — see the counterexample.) -/
theorem genie_C10 (kvs : List (String × PyVal)) (columns data : PyVal)
    (hc : dictLookup kvs "columns" = some columns)
    (hd : dictLookup kvs "data" = some data)
    (hbad : (∀ ckvs, columns ≠ .pdict ckvs) ∨
      (∃ ckvs, columns = .pdict ckvs ∧ dictLookup ckvs "columns" = none) ∨
      (∃ dkvs, data = .pdict dkvs ∧ dictLookup dkvs "data_array" = none)) :
    ∃ dblocks, descBlocksSlack (.pdict kvs) = .ok dblocks ∧
      process_for_slack (.pdict kvs) =
        .ok (dblocks ++ [.section (.pstr "Unexpected data format received.")]) := by
  obtain ⟨dblocks, hdb⟩ := descBlocksSlack_pdict kvs
  refine ⟨dblocks, hdb, ?_⟩
  unfold process_for_slack
  rcases hbad with h | ⟨ckvs, hck, h⟩ | ⟨dkvs, hdk, h⟩
  · cases columns with
    | pdict ckvs => exact absurd rfl (h ckvs)
    | pnone =>
      simp [hdb, pyContains, hc, hd, pySubscript, Bind.bind, Except.bind, pure, Except.pure]
    | pbool b =>
      simp [hdb, pyContains, hc, hd, pySubscript, Bind.bind, Except.bind, pure, Except.pure]
    | pint n =>
      simp [hdb, pyContains, hc, hd, pySubscript, Bind.bind, Except.bind, pure, Except.pure]
    | pfloat m e =>
      simp [hdb, pyContains, hc, hd, pySubscript, Bind.bind, Except.bind, pure, Except.pure]
    | pstr s =>
      simp [hdb, pyContains, hc, hd, pySubscript, Bind.bind, Except.bind, pure, Except.pure]
    | plist xs =>
      simp [hdb, pyContains, hc, hd, pySubscript, Bind.bind, Except.bind, pure, Except.pure]
  · subst hck
    simp [hdb, pyContains, hc, hd, pySubscript, h, Bind.bind, Except.bind, pure, Except.pure]
  · subst hdk
    cases columns with
    | pdict ckvs2 =>
      by_cases h2 : (dictLookup ckvs2 "columns").isSome
      · simp [hdb, pyContains, hc, hd, pySubscript, h, h2, Bind.bind, Except.bind, pure,
          Except.pure]
      · simp [hdb, pyContains, hc, hd, pySubscript, h2, Bind.bind, Except.bind, pure,
          Except.pure]
    | pnone =>
      simp [hdb, pyContains, hc, hd, pySubscript, Bind.bind, Except.bind, pure, Except.pure]
    | pbool b =>
      simp [hdb, pyContains, hc, hd, pySubscript, Bind.bind, Except.bind, pure, Except.pure]
    | pint n =>
      simp [hdb, pyContains, hc, hd, pySubscript, Bind.bind, Except.bind, pure, Except.pure]
    | pfloat m e =>
      simp [hdb, pyContains, hc, hd, pySubscript, Bind.bind, Except.bind, pure, Except.pure]
    | pstr s =>
      simp [hdb, pyContains, hc, hd, pySubscript, Bind.bind, Except.bind, pure, Except.pure]
    | plist xs =>
      simp [hdb, pyContains, hc, hd, pySubscript, Bind.bind, Except.bind, pure, Except.pure]

/-- Witness for C10 where `columns` is a plain string. -/
theorem genie_C10_witness :
    ∃ dblocks,
      descBlocksSlack (.pdict [("columns", .pstr "x"), ("data", .pint 0)]) = .ok dblocks ∧
      process_for_slack (.pdict [("columns", .pstr "x"), ("data", .pint 0)]) =
        .ok (dblocks ++ [.section (.pstr "Unexpected data format received.")]) :=
  genie_C10 [("columns", .pstr "x"), ("data", .pint 0)] (.pstr "x") (.pint 0) rfl rfl
    (Or.inl fun _ h => PyVal.noConfusion h)

end GenieBot
